import Mathlib

/-!
Verification of the TextAnalyzer sentiment pipeline.

This file shallowly embeds the tokenizer (`tokenizer.py`), the rule engine and
score normalizer (`sentiment_analyzer.py`), and the orchestration of
`SentimentAnalyzer.analyze`.  Scores are modelled as exact rationals up to the
score normalizer, which moves to the reals because of the square roots; a
Python arithmetic exception (ValueError / ZeroDivisionError) is modelled as
`none`.  The external `RussianNormalizer` collaborator is not part of the
sources; it is modelled from the spec as a value-rewriting function.
-/

namespace TextAnalyzer

/-- `Token` from `tokenizer.py`: `value` is the canonical (lowercased) form,
`original_value` the matched surface text, `is_emoji` the token class. -/
structure Token where
  value : String
  original_value : String
  is_emoji : Bool
deriving DecidableEq, Repr

/-! ### Character classes used by the tokenizer regex

The combined pattern of `TextTokenizerEnhanced.comprehensive` recognises,
at each position and in this alternative order: an ASCII emoticon
`[:;8=][\-\^]?[)D(PO3]+` (case-insensitive), a single code point from one of
six emoji/pictograph ranges, or a Cyrillic word `\b[а-яё]+\b[!?.,;]*`
(case-insensitive).  All character tests are expressed over `Char.toNat`. -/

def isEmoStart (c : Char) : Bool :=
  c == ':' || c == ';' || c == '8' || c == '='

def isEmoNose (c : Char) : Bool :=
  c == '-' || c == '^'

/-- Closing characters of the ASCII-emoticon branch; `re.IGNORECASE` makes the
letters `D`, `P`, `O` also match their lowercase forms. -/
def isEmoClose (c : Char) : Bool :=
  c == ')' || c == '(' || c == '3' || c == 'D' || c == 'd' ||
  c == 'P' || c == 'p' || c == 'O' || c == 'o'

/-- The six single-code-point emoji ranges of the combined pattern. -/
def isEmojiChar (c : Char) : Bool :=
  (0x1F300 ≤ c.toNat && c.toNat ≤ 0x1F5FF) ||
  (0x1F600 ≤ c.toNat && c.toNat ≤ 0x1F64F) ||
  (0x1F680 ≤ c.toNat && c.toNat ≤ 0x1F6FF) ||
  (0x1F1E0 ≤ c.toNat && c.toNat ≤ 0x1F1FF) ||
  (0x2600 ≤ c.toNat && c.toNat ≤ 0x26FF) ||
  (0x2700 ≤ c.toNat && c.toNat ≤ 0x27BF)

/-- Lowercase Cyrillic letters matched by `[а-яё]`. -/
def isCyrLower (c : Char) : Bool :=
  (0x430 ≤ c.toNat && c.toNat ≤ 0x44F) || c.toNat == 0x451

/-- Uppercase Cyrillic letters matched through `re.IGNORECASE`. -/
def isCyrUpper (c : Char) : Bool :=
  (0x410 ≤ c.toNat && c.toNat ≤ 0x42F) || c.toNat == 0x401

def isCyrLetter (c : Char) : Bool :=
  isCyrLower c || isCyrUpper c

def isAsciiLetter (c : Char) : Bool :=
  (0x41 ≤ c.toNat && c.toNat ≤ 0x5A) || (0x61 ≤ c.toNat && c.toNat ≤ 0x7A)

def isAsciiUpper (c : Char) : Bool :=
  0x41 ≤ c.toNat && c.toNat ≤ 0x5A

def isAsciiDigit (c : Char) : Bool :=
  0x30 ≤ c.toNat && c.toNat ≤ 0x39

/-- Python's `\w` (a word character), restricted to the character classes this
program distinguishes: ASCII letters and digits, underscore, and the Cyrillic
block U+0400–U+04FF. -/
def isWordChar (c : Char) : Bool :=
  isAsciiLetter c || isAsciiDigit c || c == '_' ||
  (0x400 ≤ c.toNat && c.toNat ≤ 0x4FF)

/-- Trailing punctuation accepted after a word: `[!?.,;]`. -/
def isTrailPunct (c : Char) : Bool :=
  c == '!' || c == '?' || c == '.' || c == ',' || c == ';'

/-- Python `str.lower` on the characters this program handles: uppercase
Cyrillic and ASCII letters are mapped to lowercase, all else is unchanged. -/
def pyLowerChar (c : Char) : Char :=
  if isCyrUpper c then
    if c.toNat == 0x401 then Char.ofNat 0x451 else Char.ofNat (c.toNat + 0x20)
  else if isAsciiUpper c then Char.ofNat (c.toNat + 0x20)
  else c

/-- Cased characters for Python's `str.isupper` over this program's alphabet. -/
def isCasedChar (c : Char) : Bool :=
  isAsciiLetter c || isCyrLetter c

def isUpperCased (c : Char) : Bool :=
  isAsciiUpper c || isCyrUpper c

/-- Python `str.isupper`: at least one cased character and every cased
character uppercase. -/
def pyIsUpper (s : String) : Bool :=
  s.data.any isCasedChar && s.data.all (fun c => !isCasedChar c || isUpperCased c)

/-! ### The tokenizer scan

`tokenize_with_positions` runs `comprehensive.finditer` left to right: at each
position the alternatives are tried in pattern order; on failure the scan
advances one character, on success it resumes after the match.  The `\b` before
a word succeeds iff the previous character is not a word character (`prev`
below); the `\b` after the letter run succeeds iff the following character is
not a word character (no shorter letter run can satisfy it either, because two
adjacent Cyrillic letters never form a boundary).  The `fuel` argument
decreases by one each step while at least one character is consumed, so
`fuel = length of the text` never runs out. -/

def boundBlocked : Option Char → Bool
  | some p => isWordChar p
  | none => false

def wordCharAhead : List Char → Bool
  | d :: _ => isWordChar d
  | [] => false

/-- Consumption of the optional emoticon nose `[\-\^]?`. -/
def emoticonSplit (rest : List Char) : List Char × List Char :=
  match rest with
  | d :: r => if isEmoNose d then ([d], r) else ([], d :: r)
  | [] => ([], [])

def tokenizeAux : Nat → Option Char → List Char → List Token
  | 0, _, _ => []
  | _ + 1, _, [] => []
  | fuel + 1, prev, c :: rest =>
    if isEmoStart c then
      let noseRest := emoticonSplit rest
      let closers := noseRest.2.takeWhile isEmoClose
      let rest2 := noseRest.2.dropWhile isEmoClose
      if closers = [] then tokenizeAux fuel (some c) rest
      else
        { value := String.mk (c :: (noseRest.1 ++ closers)),
          original_value := String.mk (c :: (noseRest.1 ++ closers)),
          is_emoji := true } :: tokenizeAux fuel (some (closers.getLastD c)) rest2
    else if isEmojiChar c then
      { value := String.mk [c], original_value := String.mk [c], is_emoji := true }
        :: tokenizeAux fuel (some c) rest
    else if isCyrLetter c && !boundBlocked prev then
      let letters := c :: rest.takeWhile isCyrLetter
      let rest1 := rest.dropWhile isCyrLetter
      if wordCharAhead rest1 then tokenizeAux fuel (some c) rest
      else
        let punct := rest1.takeWhile isTrailPunct
        let rest2 := rest1.dropWhile isTrailPunct
        { value := String.mk (letters.map pyLowerChar),
          original_value := String.mk (letters ++ punct),
          is_emoji := false } :: tokenizeAux fuel (some ((letters ++ punct).getLastD c)) rest2
    else
      tokenizeAux fuel (some c) rest

/-- `TextTokenizerEnhanced.tokenize_with_positions` (the final comprehension
keeps only tokens with a non-empty `value`, as in the source). -/
def tokenize_with_positions (text : String) : List Token :=
  (tokenizeAux text.data.length none text.data).filter (fun t => t.value ≠ "")

/-! ### Static tables of `SentimentAnalyzer` -/

/-- `_load_booster_words`. -/
def booster_words : List (String × ℚ) :=
  [("прекрасно", 4.0), ("идеально", 4.0), ("восхитительно", 4.0),
   ("блестяще", 4.0), ("великолепно", 4.0), ("потрясающе", 3.0),
   ("изумительно", 3.0), ("невероятно", 3.0), ("очень", 2.0),
   ("чрезвычайно", 2.0), ("исключительно", 2.0), ("необычайно", 2.0),
   ("довольно", 1.0), ("весьма", 1.0), ("достаточно", 1.0),
   ("абсолютно", 0.0), ("совершенно", 0.0), ("полностью", 0.0),
   ("целиком", 0.0), ("прямо", 0.0), ("просто", 0.0), ("прямо-таки", 0.0),
   ("даже", 0.0), ("вот", 0.0), ("же", 0.0), ("слишком", -1.0),
   ("чрезмерно", -1.0), ("катастрофически", -2.0), ("критически", -2.0),
   ("ужасно", -2.0), ("кошмарно", -2.0), ("отвратительно", -4.0),
   ("омерзительно", -4.0), ("ужасающе", -3.0), ("невыносимо", -3.0),
   ("нестерпимо", -3.0)]

/-- `_load_negation_words`. -/
def negation_words : List String :=
  ["не", "нет", "ни", "никогда", "нисколько", "никак",
   "ничуть", "ничего", "никуда", "нигде", "никто", "ничто"]

/-- The `_intensifiers` property. -/
def intensifiers : List String :=
  ["же", "ведь", "вот", "прямо", "просто", "действительно",
   "именно", "точно", "ровно"]

/-- The `modifiers` table local to `_apply_modifier_rules_enhanced`. -/
def modifiers : List (String × ℚ) :=
  [("вроде", 0.7), ("как бы", 0.6), ("типа", 0.7), ("почти", 0.8),
   ("слегка", 0.8), ("немного", 0.8), ("отчасти", 0.9), ("частично", 0.9),
   ("не совсем", 0.5), ("в некоторой степени", 0.8)]

/-- The `contrast_words` set local to `_apply_contrast_rules_enhanced`. -/
def contrast_words : List String :=
  ["но", "однако", "тем не менее", "впрочем"]

/-! ### The seven per-token rules -/

/-- Python `range(a, b)` for naturals (`max(0, index - k)` is already the
truncated subtraction). -/
def pyRange (a b : Nat) : List Nat :=
  List.range' a (b - a)

/-- The test of the scan loop in `_apply_negation_rules_enhanced`: token `j`
is a non-emoji token whose value is a negation word. -/
def negationHit (tokens : List Token) (j : Nat) : Bool :=
  match tokens[j]? with
  | some t => !t.is_emoji && negation_words.contains t.value
  | none => false

/-- `_apply_negation_rules_enhanced`: scan `j = max(0, index-3) .. index-1`
in increasing order, return on the first negation word found. -/
def apply_negation_rules_enhanced (tokens : List Token) (index : Nat) (score : ℚ) : ℚ :=
  match (pyRange (index - 3) index).find? (negationHit tokens) with
  | some j => score * (-0.74) * (1 - (((index - j : Nat) : ℚ) - 1) * 0.1)
  | none => score

/-- `_apply_booster_rules_enhanced`: a booster word immediately before the
token multiplies; otherwise an intensifier immediately after multiplies 1.1. -/
def apply_booster_rules_enhanced (tokens : List Token) (index : Nat) (score : ℚ) : ℚ :=
  let fromPrev : Option ℚ :=
    if 0 < index then
      match tokens[index - 1]? with
      | some prev => if prev.is_emoji then none else booster_words.lookup prev.value
      | none => none
    else none
  match fromPrev with
  | some b => score * b
  | none =>
    if index < tokens.length - 1 then
      match tokens[index + 1]? with
      | some next =>
        if !next.is_emoji && intensifiers.contains next.value then score * 1.1 else score
      | none => score
    else score

/-- `_apply_caps_rules`: applied to the token's `value`. -/
def apply_caps_rules (token_value : String) (score : ℚ) : ℚ :=
  if pyIsUpper token_value && 1 < token_value.length then score * 1.2 else score

/-- `_apply_emoji_punctuation_rules`. -/
def apply_emoji_punctuation_rules (token : Token) (score : ℚ) : ℚ :=
  if token.is_emoji then score
  else
    let exclamation_count := token.original_value.data.count '!'
    let question_count := token.original_value.data.count '?'
    if 0 < exclamation_count then score * (1 + (exclamation_count : ℚ) * 0.1)
    else if 0 < question_count then score * (1 - (question_count : ℚ) * 0.05)
    else score

/-- The test of the scan loop in `_apply_modifier_rules_enhanced`: the damping
factor of token `j` when it is a non-emoji modifier word. -/
def modifierHit (tokens : List Token) (j : Nat) : Option ℚ :=
  match tokens[j]? with
  | some t => if t.is_emoji then none else modifiers.lookup t.value
  | none => none

/-- `_apply_modifier_rules_enhanced`: scan `j = max(0, index-2) .. index-1`,
return on the first modifier word found. -/
def apply_modifier_rules_enhanced (tokens : List Token) (index : Nat) (score : ℚ) : ℚ :=
  match (pyRange (index - 2) index).findSome? (modifierHit tokens) with
  | some m => score * m
  | none => score

/-- The test of the scan loop in `_apply_contrast_rules_enhanced`. -/
def contrastHit (tokens : List Token) (j : Nat) : Bool :=
  match tokens[j]? with
  | some t => !t.is_emoji && contrast_words.contains t.value
  | none => false

/-- `_apply_contrast_rules_enhanced`: any contrast word in the five preceding
positions multiplies by 1.3 (the loop returns the same value at any hit). -/
def apply_contrast_rules_enhanced (tokens : List Token) (index : Nat) (score : ℚ) : ℚ :=
  if (pyRange (index - 5) index).any (contrastHit tokens) then score * 1.3 else score

/-- `_apply_global_emoji_rules`. -/
def apply_global_emoji_rules (lex : String → Option ℚ) (tokens : List Token) (score : ℚ) : ℚ :=
  let positive_emojis :=
    (tokens.filter (fun t => t.is_emoji && 0 < ((lex t.value).getD 0 : ℚ))).length
  let negative_emojis :=
    (tokens.filter (fun t => t.is_emoji && ((lex t.value).getD 0 : ℚ) < 0)).length
  let s1 := if 1 < positive_emojis then score * (1 + (positive_emojis : ℚ) * 0.05) else score
  let s2 := if 1 < negative_emojis then s1 * (1 - (negative_emojis : ℚ) * 0.05) else s1
  let total_exclamations := (tokens.map (fun t => t.original_value.data.count '!')).sum
  let total_questions := (tokens.map (fun t => t.original_value.data.count '?')).sum
  let s3 :=
    if 0 < total_exclamations then s2 * (1 + ((min total_exclamations 10 : Nat) : ℚ) * 0.05)
    else s2
  let s4 :=
    if 3 < total_questions then s3 * (1 - ((min (total_questions - 3) 5 : Nat) : ℚ) * 0.03)
    else s3
  s4

/-- `_apply_vader_rules_enhanced`: the per-token loop followed by the global
rules; returns `(raw score, word_count)`. -/
def apply_vader_rules_enhanced (lex : String → Option ℚ) (tokens : List Token) : ℚ × Nat :=
  let step : ℚ × Nat → Nat → ℚ × Nat := fun acc i =>
    match tokens[i]? with
    | none => acc
    | some t =>
      match lex t.value with
      | none => acc
      | some word_score0 =>
        let w1 := if t.is_emoji then word_score0
                  else apply_negation_rules_enhanced tokens i word_score0
        let w2 := apply_booster_rules_enhanced tokens i w1
        let w3 := if t.is_emoji then w2 else apply_caps_rules t.value w2
        let w4 := apply_emoji_punctuation_rules t w3
        let w5 := apply_modifier_rules_enhanced tokens i w4
        let w6 := apply_contrast_rules_enhanced tokens i w5
        (acc.1 + w6, acc.2 + 1)
  let p := (List.range tokens.length).foldl step (0, 0)
  (apply_global_emoji_rules lex tokens p.1, p.2)

/-! ### Score normalizer, label, and the `analyze` orchestration -/

/-- `SentimentResult` from `sentiment_analyzer.py`. -/
structure SentimentResult where
  score : ℝ
  sentiment : String
  word_count : Nat

/-- `_normalize_vader_score`.  The raw score is exact (a rational); the
result lives in `ℝ` because of the square roots.  `none` models the Python
arithmetic exception on the else-branch: `math.sqrt(score + 15)` raises
`ValueError` when `score + 15 < 0`, and the division raises
`ZeroDivisionError` when `score + 15 = 0`; both cases are `score + 15 ≤ 0`.
The second square root `sqrt(1 + word_count * 0.001) ≥ 1` never faults. -/
noncomputable def normalize_vader_score (score : ℚ) (word_count : Nat) : Option ℝ :=
  if word_count = 0 then some 0
  else if score + 15 ≤ 0 then none
  else
    let normalized : ℝ := (score : ℝ) / Real.sqrt ((score : ℝ) + 15)
    let damped : ℝ := normalized / Real.sqrt (1 + (word_count : ℝ) * 0.001)
    some (max (-4) (min 4 damped))

/-- `_get_sentiment_label`: the `match` in the source is an ordered
conditional over the two thresholds. -/
noncomputable def get_sentiment_label (score : ℝ) : String :=
  if 0.05 ≤ score then "Позитивная тональность"
  else if score ≤ -0.05 then "Негативная тональность"
  else "Нейтральная"

/-- Modelled from the spec: the external `RussianNormalizer.normalize`
collaborator (its module is not among the sources).  Per the spec it returns
the word tokens in the same order and number, each with `value` replaced by
its lemma and `original_value` preserved; the lemma function `lem` is left
abstract (a token whose lemma could not be determined keeps its original
value, i.e. `lem` may be the identity). -/
def normalizeTokens (lem : String → String) (tokens : List Token) : List Token :=
  tokens.map (fun t => { t with value := lem t.value })

/-- Lines 30–38 of `analyze`: partition into emoji and word tokens, normalize
the words, then concatenate normalized words followed by emoji tokens. -/
def merge_tokens (lem : String → String) (tokens : List Token) : List Token :=
  normalizeTokens lem (tokens.filter (fun t => !t.is_emoji)) ++
    tokens.filter (fun t => t.is_emoji)

/-- `SentimentAnalyzer.analyze`, parametrised by the lexicon `lex` (the one
piece of analyzer state) and the external lemmatizer `lem`.  `none` models an
uncaught exception escaping from `_normalize_vader_score`. -/
noncomputable def analyze (lex : String → Option ℚ) (lem : String → String)
    (text : String) : Option SentimentResult :=
  let tokens := tokenize_with_positions text
  let all_tokens := merge_tokens lem tokens
  let p := apply_vader_rules_enhanced lex all_tokens
  match normalize_vader_score p.1 p.2 with
  | none => none
  | some normalized_score =>
    some { score := normalized_score,
           sentiment := get_sentiment_label normalized_score,
           word_count := p.2 }

/-! ### Helper lemmas -/

theorem normalize_vader_score_mem (score : ℚ) (wc : Nat) (x : ℝ)
    (h : normalize_vader_score score wc = some x) : -4 ≤ x ∧ x ≤ 4 := by
  unfold normalize_vader_score at h
  split at h
  · simp only [Option.some.injEq] at h
    subst h
    norm_num
  · split at h
    · exact absurd h (by simp)
    · simp only [Option.some.injEq] at h
      subst h
      refine ⟨le_max_left _ _, max_le (by norm_num) ?_⟩
      exact le_trans (min_le_left _ _) (by norm_num)

theorem normalize_vader_score_zero (wc : Nat) :
    normalize_vader_score 0 wc = some 0 := by
  unfold normalize_vader_score
  split
  · rfl
  · rw [if_neg (by norm_num)]
    norm_num

theorem get_sentiment_label_zero : get_sentiment_label 0 = "Нейтральная" := by
  unfold get_sentiment_label
  rw [if_neg (by norm_num), if_neg (by norm_num)]

theorem apply_global_emoji_rules_zero (lex : String → Option ℚ) (tokens : List Token) :
    apply_global_emoji_rules lex tokens 0 = 0 := by
  simp only [apply_global_emoji_rules]
  split_ifs <;> ring

theorem foldl_fixed {α β : Type} (f : α → β → α) (h : ∀ a b, f a b = a) :
    ∀ (l : List β) (a : α), l.foldl f a = a
  | [], _ => rfl
  | b :: l, a => by rw [List.foldl_cons, h]; exact foldl_fixed f h l a

theorem apply_vader_rules_empty_lexicon (tokens : List Token) :
    apply_vader_rules_enhanced (fun _ => none) tokens = (0, 0) := by
  simp only [apply_vader_rules_enhanced]
  rw [foldl_fixed _ (fun acc i => by cases tokens[i]? <;> rfl)]
  rw [apply_global_emoji_rules_zero]

theorem analyze_empty_lexicon (lem : String → String) (text : String) :
    analyze (fun _ => none) lem text = some ⟨0, "Нейтральная", 0⟩ := by
  simp only [analyze, apply_vader_rules_empty_lexicon, normalize_vader_score_zero,
    get_sentiment_label_zero]

/-! ### Tokenizer output invariant -/

theorem mem_takeWhile_pred {α : Type} (p : α → Bool) :
    ∀ (l : List α) (a : α), a ∈ l.takeWhile p → p a = true
  | [], a, h => by simp [List.takeWhile] at h
  | x :: l, a, h => by
    rw [List.takeWhile_cons] at h
    split at h
    · rcases List.mem_cons.mp h with rfl | h'
      · assumption
      · exact mem_takeWhile_pred p l a h'
    · cases h

theorem emoticonSplit_nose :
    ∀ (rest : List Char) (x : Char), x ∈ (emoticonSplit rest).1 → isEmoNose x = true
  | [], x, h => by simp [emoticonSplit] at h
  | d :: r, x, h => by
    simp only [emoticonSplit] at h
    split at h
    · rcases List.mem_cons.mp h with rfl | h'
      · assumption
      · cases h'
    · cases h

theorem toNat_ofNat_valid {n : Nat} (h : n < 0xD800) : (Char.ofNat n).toNat = n := by
  rw [Char.ofNat, dif_pos (Or.inl h)]
  rfl

theorem isEmoStart_ne_space {c : Char} (h : isEmoStart c = true) : c ≠ ' ' := by
  rintro rfl
  exact absurd h (by decide)

theorem isEmoNose_ne_space {c : Char} (h : isEmoNose c = true) : c ≠ ' ' := by
  rintro rfl
  exact absurd h (by decide)

theorem isEmoClose_ne_space {c : Char} (h : isEmoClose c = true) : c ≠ ' ' := by
  rintro rfl
  exact absurd h (by decide)

theorem isEmojiChar_ne_space {c : Char} (h : isEmojiChar c = true) : c ≠ ' ' := by
  rintro rfl
  exact absurd h (by decide)

theorem isCyrLower_ne_space {c : Char} (h : isCyrLower c = true) : c ≠ ' ' := by
  rintro rfl
  exact absurd h (by decide)

theorem isCyrLower_pyLowerChar {c : Char} (h : isCyrLetter c = true) :
    isCyrLower (pyLowerChar c) = true := by
  unfold pyLowerChar
  simp only [isCyrLetter, isCyrLower, isCyrUpper, isAsciiUpper, Bool.or_eq_true,
    Bool.and_eq_true, decide_eq_true_eq, beq_iff_eq] at h ⊢
  split_ifs with h1 h2 h3
  · rw [toNat_ofNat_valid (by norm_num)]
    norm_num
  · simp only [isCyrUpper, Bool.or_eq_true, Bool.and_eq_true, decide_eq_true_eq,
      beq_iff_eq] at h1
    rw [toNat_ofNat_valid (by omega)]
    omega
  · simp only [isCyrUpper, isAsciiUpper, Bool.or_eq_true, Bool.and_eq_true,
      decide_eq_true_eq, beq_iff_eq] at h1 h3
    omega
  · simp only [isCyrUpper, Bool.or_eq_true, Bool.and_eq_true, decide_eq_true_eq,
      beq_iff_eq] at h1
    omega

/-- Every token produced by the tokenizer scan has a space-free `value`, and a
non-emoji (word) token's `value` is a non-empty string of lowercase Cyrillic
letters. -/
theorem tokenizeAux_sound :
    ∀ (fuel : Nat) (prev : Option Char) (cs : List Char),
    ∀ t ∈ tokenizeAux fuel prev cs,
    (t.is_emoji = false → t.value.data ≠ [] ∧ ∀ c ∈ t.value.data, isCyrLower c = true)
    ∧ (∀ c ∈ t.value.data, c ≠ ' ')
  | 0, _, _ => by intro t ht; cases ht
  | _ + 1, _, [] => by intro t ht; cases ht
  | fuel + 1, prev, c :: rest => by
    intro t ht
    simp only [tokenizeAux] at ht
    by_cases h1 : isEmoStart c = true
    · rw [if_pos h1] at ht
      by_cases h2 : ((emoticonSplit rest).2.takeWhile isEmoClose) = []
      · rw [if_pos h2] at ht
        exact tokenizeAux_sound fuel _ _ t ht
      · rw [if_neg h2] at ht
        rcases List.mem_cons.mp ht with rfl | ht'
        · refine ⟨fun hfalse => absurd hfalse (by simp), fun ch hch => ?_⟩
          rcases List.mem_cons.mp hch with rfl | hch'
          · exact isEmoStart_ne_space h1
          · rcases List.mem_append.mp hch' with hn | hc
            · exact isEmoNose_ne_space (emoticonSplit_nose rest ch hn)
            · exact isEmoClose_ne_space (mem_takeWhile_pred _ _ ch hc)
        · exact tokenizeAux_sound fuel _ _ t ht'
    · rw [if_neg h1] at ht
      by_cases h3 : isEmojiChar c = true
      · rw [if_pos h3] at ht
        rcases List.mem_cons.mp ht with rfl | ht'
        · refine ⟨fun hfalse => absurd hfalse (by simp), fun ch hch => ?_⟩
          rcases List.mem_cons.mp hch with rfl | hch'
          · exact isEmojiChar_ne_space h3
          · cases hch'
        · exact tokenizeAux_sound fuel _ _ t ht'
      · rw [if_neg h3] at ht
        by_cases h4 : (isCyrLetter c && !boundBlocked prev) = true
        · rw [if_pos h4] at ht
          by_cases h5 : wordCharAhead (rest.dropWhile isCyrLetter) = true
          · rw [if_pos h5] at ht
            exact tokenizeAux_sound fuel _ _ t ht
          · rw [if_neg h5] at ht
            rcases List.mem_cons.mp ht with rfl | ht'
            · have hletters : ∀ x ∈ c :: rest.takeWhile isCyrLetter, isCyrLetter x = true := by
                intro x hx
                rcases List.mem_cons.mp hx with rfl | hx'
                · exact (Bool.and_eq_true _ _ |>.mp h4).1
                · exact mem_takeWhile_pred _ _ x hx'
              have hlow : ∀ ch ∈ ((c :: rest.takeWhile isCyrLetter).map pyLowerChar),
                  isCyrLower ch = true := by
                intro ch hch
                obtain ⟨x, hx, rfl⟩ := List.mem_map.mp hch
                exact isCyrLower_pyLowerChar (hletters x hx)
              refine ⟨fun _ => ⟨by simp, hlow⟩, fun ch hch => isCyrLower_ne_space (hlow ch hch)⟩
            · exact tokenizeAux_sound fuel _ _ t ht'
        · rw [if_neg h4] at ht
          exact tokenizeAux_sound fuel _ _ t ht

/-- The invariant transported to `tokenize_with_positions`. -/
theorem tokenize_sound (text : String) (t : Token)
    (ht : t ∈ tokenize_with_positions text) :
    (t.is_emoji = false → t.value.data ≠ [] ∧ ∀ c ∈ t.value.data, isCyrLower c = true)
    ∧ (∀ c ∈ t.value.data, c ≠ ' ') :=
  tokenizeAux_sound _ _ _ t (List.mem_filter.mp ht).1

/-! ### Concrete lexicons used on concrete inputs -/

/-- A lexicon holding the single strongly negative word "плохо" ↦ −4. -/
def lexBad : String → Option ℚ := fun s => if s = "плохо" then some (-4) else none

/-- A lexicon holding the single positive word "хорошо" ↦ 2. -/
def lexGood : String → Option ℚ := fun s => if s = "хорошо" then some 2 else none

/-- A lexicon holding the single positive word "отлично" ↦ 2. -/
def lexFine : String → Option ℚ := fun s => if s = "отлично" then some 2 else none

/-- Evaluation of the rule engine on the tokens of "плохо плохо плохо плохо"
under `lexBad`: four −4 hits and no firing rule give a raw score of −16. -/
theorem engine_on_four_bad_words :
    apply_vader_rules_enhanced lexBad
      (merge_tokens id (tokenize_with_positions "плохо плохо плохо плохо"))
      = (-16, 4) := by
  rw [show merge_tokens id (tokenize_with_positions "плохо плохо плохо плохо")
        = [⟨"плохо", "плохо", false⟩, ⟨"плохо", "плохо", false⟩,
           ⟨"плохо", "плохо", false⟩, ⟨"плохо", "плохо", false⟩] from by decide]
  simp +decide [apply_vader_rules_enhanced, apply_global_emoji_rules,
    apply_negation_rules_enhanced, apply_booster_rules_enhanced, apply_caps_rules,
    apply_emoji_punctuation_rules, apply_modifier_rules_enhanced,
    apply_contrast_rules_enhanced, negationHit, modifierHit, contrastHit, pyRange,
    List.range', List.find?, List.findSome?, List.lookup, List.range, List.range.loop,
    lexBad, booster_words, negation_words, intensifiers, modifiers, contrast_words,
    pyIsUpper]
  norm_num

/-- Evaluation of the rule engine on the tokens of "абсолютно хорошо" under
`lexGood`: the matched word "хорошо" is multiplied by the 0.0 booster
"абсолютно", so the raw score is 0 with one counted word. -/
theorem engine_on_zero_booster :
    apply_vader_rules_enhanced lexGood
      (merge_tokens id (tokenize_with_positions "абсолютно хорошо"))
      = (0, 1) := by
  rw [show merge_tokens id (tokenize_with_positions "абсолютно хорошо")
        = [⟨"абсолютно", "абсолютно", false⟩, ⟨"хорошо", "хорошо", false⟩] from by decide]
  simp +decide [apply_vader_rules_enhanced, apply_global_emoji_rules,
    apply_negation_rules_enhanced, apply_booster_rules_enhanced, apply_caps_rules,
    apply_emoji_punctuation_rules, apply_modifier_rules_enhanced,
    apply_contrast_rules_enhanced, negationHit, modifierHit, contrastHit, pyRange,
    List.range', List.find?, List.findSome?, List.lookup, List.range, List.range.loop,
    lexGood, booster_words, negation_words, intensifiers, modifiers, contrast_words,
    pyIsUpper]
  norm_num

/-! ### Claims -/

/-- Claim C1: for every input text, whenever `analyze` returns a
`SentimentResult`, its `score` lies in the closed interval `[-4, 4]`; the
score normalizer clamps its result to that interval before returning. -/
theorem C1_score_within_bounds (lex : String → Option ℚ) (lem : String → String)
    (text : String) (r : SentimentResult) (h : analyze lex lem text = some r) :
    -4 ≤ r.score ∧ r.score ≤ 4 := by
  simp only [analyze] at h
  split at h
  · cases h
  · rename_i ns heq
    cases h
    exact normalize_vader_score_mem _ _ _ heq

/-- Witness for C1 at the empty lexicon and empty text. -/
theorem C1_score_within_bounds_witness :
    -4 ≤ (SentimentResult.mk 0 "Нейтральная" 0).score
    ∧ (SentimentResult.mk 0 "Нейтральная" 0).score ≤ 4 :=
  C1_score_within_bounds (fun _ => none) id "" ⟨0, "Нейтральная", 0⟩
    (analyze_empty_lexicon id "")

/-- Claim C2: the score normalizer is claimed to resolve `raw_score < -15`
deterministically and never raise.  The code does not: for `raw_score = -16`
and `word_count = 1` the else-branch computes `math.sqrt(-1)`, which raises
(`none` in this embedding), and the fault is reachable from `analyze` — four
occurrences of a −4 word give a raw score of −16, so the whole analysis
raises instead of returning a result. -/
theorem C2_normalizer_faults_below_minus15 :
    normalize_vader_score (-16) 1 = none
    ∧ analyze lexBad id "плохо плохо плохо плохо" = none := by
  constructor
  · unfold normalize_vader_score
    rw [if_neg (by norm_num), if_pos (by norm_num)]
  · simp only [analyze]
    rw [engine_on_four_bad_words]
    rw [show normalize_vader_score (-16 : ℚ) 4 = none from by
      unfold normalize_vader_score
      rw [if_neg (by norm_num), if_pos (by norm_num)]]

/-- Claim C6, counterexample: `word_count == 0 ⇔ score == 0.0` fails in the
right-to-left direction.  With the lexicon "хорошо" ↦ 2, the text
"абсолютно хорошо" matches one word but the booster "абсолютно" carries the
multiplier 0.0, so the returned result has `word_count = 1` and
`score = 0.0`. -/
theorem C6_counterexample :
    analyze lexGood id "абсолютно хорошо" = some ⟨0, "Нейтральная", 1⟩
    ∧ ¬(((1 : Nat) = 0) ↔ ((0 : ℝ) = 0)) := by
  constructor
  · simp only [analyze]
    rw [engine_on_zero_booster]
    simp [normalize_vader_score_zero, get_sentiment_label_zero]
  · simp

/-- Claim C6 as amended: only the left-to-right direction holds — a returned
result with `word_count = 0` has `score = 0` exactly (the converse fails, see
the counterexample: a matched token whose contextual score is 0 also yields
score 0 with a positive word count). -/
theorem C6_amended_zero_words_zero_score (lex : String → Option ℚ)
    (lem : String → String) (text : String) (r : SentimentResult)
    (h : analyze lex lem text = some r) (h0 : r.word_count = 0) : r.score = 0 := by
  simp only [analyze] at h
  split at h
  · cases h
  · rename_i ns heq
    cases h
    simp only at h0
    rw [h0] at heq
    unfold normalize_vader_score at heq
    rw [if_pos rfl] at heq
    exact (Option.some.inj heq).symm

/-- Witness for the amended C6 at the empty lexicon and empty text. -/
theorem C6_amended_zero_words_zero_score_witness :
    (SentimentResult.mk 0 "Нейтральная" 0).score = 0 :=
  C6_amended_zero_words_zero_score (fun _ => none) id "" ⟨0, "Нейтральная", 0⟩
    (analyze_empty_lexicon id "") rfl

/-- Claim C7: with an empty lexicon (the state the engine continues with when
the lexicon source is missing or fails to load), every `analyze` call returns
normally with `word_count = 0`, `score = 0.0` and the neutral label. -/
theorem C7_empty_lexicon_degraded (lem : String → String) (text : String) :
    analyze (fun _ => none) lem text =
      some { score := 0, sentiment := "Нейтральная", word_count := 0 } :=
  analyze_empty_lexicon lem text

/-- Claim C8: the label is determined by the normalized score alone through
two ordered thresholds: `score ≥ 0.05` (inclusive) is Positive,
`score ≤ -0.05` (inclusive) is Negative, and everything strictly between is
Neutral. -/
theorem C8_label_thresholds (s : ℝ) :
    (0.05 ≤ s → get_sentiment_label s = "Позитивная тональность")
    ∧ (s ≤ -0.05 → get_sentiment_label s = "Негативная тональность")
    ∧ (-0.05 < s → s < 0.05 → get_sentiment_label s = "Нейтральная") := by
  unfold get_sentiment_label
  refine ⟨fun h => if_pos h, fun h => ?_, fun h1 h2 => ?_⟩
  · rw [if_neg (by linarith), if_pos h]
  · rw [if_neg (by linarith), if_neg (by linarith)]

/-- Witness for C8 at the three boundary scores 0.05, −0.05 and 0. -/
theorem C8_label_thresholds_witness :
    get_sentiment_label 0.05 = "Позитивная тональность"
    ∧ get_sentiment_label (-0.05) = "Негативная тональность"
    ∧ get_sentiment_label 0 = "Нейтральная" :=
  ⟨(C8_label_thresholds 0.05).1 (by norm_num),
   (C8_label_thresholds (-0.05)).2.1 (by norm_num),
   (C8_label_thresholds 0).2.2 (by norm_num) (by norm_num)⟩

/-- Claim C9: analysis is deterministic and a pure function of the text, the
lexicon and the static tables: two runs over the same text with pointwise
equal lexicons (the only analyzer state) return identical results. -/
theorem C9_analysis_deterministic (lex₁ lex₂ : String → Option ℚ)
    (lem : String → String) (text : String) (r₁ r₂ : SentimentResult)
    (hl : ∀ w, lex₁ w = lex₂ w)
    (h₁ : analyze lex₁ lem text = some r₁)
    (h₂ : analyze lex₂ lem text = some r₂) : r₁ = r₂ := by
  have hfun : lex₁ = lex₂ := funext hl
  subst hfun
  rw [h₁] at h₂
  exact Option.some.inj h₂

/-- Witness for C9: two runs on the empty text with the empty lexicon. -/
theorem C9_analysis_deterministic_witness :
    (⟨0, "Нейтральная", 0⟩ : SentimentResult) = ⟨0, "Нейтральная", 0⟩ :=
  C9_analysis_deterministic (fun _ => none) (fun _ => none) id ""
    ⟨0, "Нейтральная", 0⟩ ⟨0, "Нейтральная", 0⟩ (fun _ => rfl)
    (analyze_empty_lexicon id "") (analyze_empty_lexicon id "")

/-- `List.find?` over `range' a n` returns the least element satisfying the
test, when one exists. -/
theorem find?_range'_min (p : Nat → Bool) :
    ∀ (n a j : Nat), a ≤ j → j < a + n → p j = true →
      (∀ k, a ≤ k → k < a + n → p k = true → j ≤ k) →
      (List.range' a n).find? p = some j
  | 0, _, _, h1, h2, _, _ => by omega
  | n + 1, a, j, h1, h2, hj, hmin => by
    rw [List.range'_succ]
    by_cases hpa : p a = true
    · rw [List.find?_cons_of_pos _ hpa]
      have hja : j = a := Nat.le_antisymm (hmin a (Nat.le_refl a) (by omega) hpa) h1
      rw [hja]
    · rw [List.find?_cons_of_neg _ (by simp [hpa])]
      have hja : j ≠ a := fun he => hpa (he ▸ hj)
      exact find?_range'_min p n (a + 1) j (by omega) (by omega) hj
        (fun k hk1 hk2 hpk => hmin k (by omega) (by omega) hpk)

/-- Claim C3, counterexample: with the two negators "не не" before "хорошо"
(both in the window `i-3 .. i-1`), the code applies the negator at distance 2,
not the nearest one at distance 1: the score 2 becomes
`2 * -0.74 * 0.9 = -1.332`, not `2 * -0.74 * 1.0 = -1.48` as the claim
requires. -/
theorem C3_counterexample :
    apply_negation_rules_enhanced
        [⟨"не", "не", false⟩, ⟨"не", "не", false⟩, ⟨"хорошо", "хорошо", false⟩] 2 2
      = 2 * (-0.74) * (1 - (2 - 1) * 0.1)
    ∧ apply_negation_rules_enhanced
        [⟨"не", "не", false⟩, ⟨"не", "не", false⟩, ⟨"хорошо", "хорошо", false⟩] 2 2
      ≠ 2 * (-0.74) * (1 - (1 - 1) * 0.1) := by
  have h : apply_negation_rules_enhanced
      [⟨"не", "не", false⟩, ⟨"не", "не", false⟩, ⟨"хорошо", "хорошо", false⟩] 2 2
      = 2 * (-0.74) * (1 - (((2 - 0 : Nat) : ℚ) - 1) * 0.1) := by
    unfold apply_negation_rules_enhanced
    rw [show (pyRange (2 - 3) 2).find? (negationHit
        [⟨"не", "не", false⟩, ⟨"не", "не", false⟩, ⟨"хорошо", "хорошо", false⟩])
        = some 0 from by decide]
  rw [h]
  constructor
  · norm_num
  · norm_num

/-- Claim C3 as amended: the negator applied is the FARTHEST one in the
window `i-3 .. i-1` (the least index `j` with a negation-word token), found
by scanning forward from `i-3` and stopping on the first hit; the score
becomes `score * -0.74 * (1 - (d-1)*0.1)` with `d = i - j` the distance to
that farthest negator. -/
theorem C3_amended_farthest_negator (tokens : List Token) (i : Nat) (s : ℚ)
    (j : Nat) (h1 : i - 3 ≤ j) (h2 : j < i)
    (hj : negationHit tokens j = true)
    (hmin : ∀ k, i - 3 ≤ k → k < i → negationHit tokens k = true → j ≤ k) :
    apply_negation_rules_enhanced tokens i s
      = s * (-0.74) * (1 - (((i - j : Nat) : ℚ) - 1) * 0.1) := by
  unfold apply_negation_rules_enhanced
  rw [show (pyRange (i - 3) i).find? (negationHit tokens) = some j from
    find?_range'_min _ (i - (i - 3)) (i - 3) j h1 (by omega) hj
      (fun k hk1 hk2 hpk => hmin k hk1 (by omega) hpk)]

/-- Witness for the amended C3: "не нет плохо", the farthest negator sits at
index 0 (distance 2) and the score 3 becomes `3 * -0.74 * 0.9`. -/
theorem C3_amended_farthest_negator_witness :
    apply_negation_rules_enhanced
        [⟨"не", "не", false⟩, ⟨"нет", "нет", false⟩, ⟨"плохо", "плохо", false⟩] 2 3
      = 3 * (-0.74) * (1 - (((2 - 0 : Nat) : ℚ) - 1) * 0.1) :=
  C3_amended_farthest_negator
    [⟨"не", "не", false⟩, ⟨"нет", "нет", false⟩, ⟨"плохо", "плохо", false⟩] 2 3 0
    (by omega) (by omega) (by decide) (fun k _ _ _ => Nat.zero_le k)

/-- Claim C4, counterexample: in the text "хорошо ☀ плохо" the emoji sits
between the two words in the tokenizer output, but the token sequence handed
to the rule engine is words-then-emoji, so the emoji no longer sits between
them (with the identity lemmatizer an order-preserving merge would equal the
tokenizer output, and it does not). -/
theorem C4_counterexample :
    tokenize_with_positions "хорошо ☀ плохо"
      = [⟨"хорошо", "хорошо", false⟩, ⟨"☀", "☀", true⟩, ⟨"плохо", "плохо", false⟩]
    ∧ merge_tokens id (tokenize_with_positions "хорошо ☀ плохо")
      = [⟨"хорошо", "хорошо", false⟩, ⟨"плохо", "плохо", false⟩, ⟨"☀", "☀", true⟩]
    ∧ merge_tokens id (tokenize_with_positions "хорошо ☀ плохо")
      ≠ tokenize_with_positions "хорошо ☀ плохо" := by
  refine ⟨by decide, by decide, by decide⟩

/-- Claim C4 as amended: the merge preserves the relative order among word
tokens and among emoji tokens separately, but places every word token before
every emoji token: the rule-engine input is the normalized word subsequence
followed by the emoji subsequence, not the original interleaving. -/
theorem C4_amended_words_then_emoji (lem : String → String) (toks : List Token) :
    (merge_tokens lem toks).filter (fun t => t.is_emoji)
      = toks.filter (fun t => t.is_emoji)
    ∧ (merge_tokens lem toks).filter (fun t => !t.is_emoji)
      = normalizeTokens lem (toks.filter (fun t => !t.is_emoji))
    ∧ merge_tokens lem toks
      = (merge_tokens lem toks).filter (fun t => !t.is_emoji)
        ++ (merge_tokens lem toks).filter (fun t => t.is_emoji) := by
  have hne : (normalizeTokens lem (toks.filter (fun t => !t.is_emoji))).filter
      (fun t => t.is_emoji) = [] := by
    rw [List.filter_eq_nil_iff]
    intro t htm
    obtain ⟨t', ht', rfl⟩ := List.mem_map.mp htm
    have : (!t'.is_emoji) = true := (List.mem_filter.mp ht').2
    simp_all
  have hkeep : (normalizeTokens lem (toks.filter (fun t => !t.is_emoji))).filter
      (fun t => !t.is_emoji) = normalizeTokens lem (toks.filter (fun t => !t.is_emoji)) := by
    rw [List.filter_eq_self]
    intro t htm
    obtain ⟨t', ht', rfl⟩ := List.mem_map.mp htm
    exact (List.mem_filter.mp ht').2
  have hemk : (toks.filter (fun t => t.is_emoji)).filter (fun t => t.is_emoji)
      = toks.filter (fun t => t.is_emoji) := by
    rw [List.filter_eq_self]
    intro t htm
    exact (List.mem_filter.mp htm).2
  have hemn : (toks.filter (fun t => t.is_emoji)).filter (fun t => !t.is_emoji) = [] := by
    rw [List.filter_eq_nil_iff]
    intro t htm
    have := (List.mem_filter.mp htm).2
    simp_all
  refine ⟨?_, ?_, ?_⟩
  · rw [merge_tokens, List.filter_append, hne, hemk, List.nil_append]
  · rw [merge_tokens, List.filter_append, hkeep, hemn, List.append_nil]
  · rw [merge_tokens, List.filter_append, List.filter_append, hne, hemk, hkeep, hemn,
      List.nil_append, List.append_nil]

/-! ### C5: the caps rule -/

theorem isCasedChar_of_cyrLower {c : Char} (h : isCyrLower c = true) :
    isCasedChar c = true := by
  simp only [isCasedChar, isCyrLetter, Bool.or_eq_true]
  exact Or.inr (Or.inl h)

theorem not_upperCased_of_cyrLower {c : Char} (h : isCyrLower c = true) :
    isUpperCased c = false := by
  rw [Bool.eq_false_iff]
  intro hu
  simp only [isCyrLower, Bool.or_eq_true, Bool.and_eq_true, decide_eq_true_eq,
    beq_iff_eq] at h
  simp only [isUpperCased, isAsciiUpper, isCyrUpper, Bool.or_eq_true,
    Bool.and_eq_true, decide_eq_true_eq, beq_iff_eq] at hu
  omega

/-- A non-empty all-lowercase-Cyrillic string is not `isupper` in Python's
sense: its first character is cased but not uppercase. -/
theorem pyIsUpper_eq_false {s : String} (hne : s.data ≠ [])
    (h : ∀ c ∈ s.data, isCyrLower c = true) : pyIsUpper s = false := by
  unfold pyIsUpper
  cases hd : s.data with
  | nil => exact absurd hd hne
  | cons a l =>
    have ha := h a (by rw [hd]; exact List.mem_cons_self a l)
    simp only [List.all_cons, isCasedChar_of_cyrLower ha, not_upperCased_of_cyrLower ha]
    simp

/-- Claim C5, counterexample: with the lexicon "отлично" ↦ 2, the fully
uppercase surface "ОТЛИЧНО" and the lowercase "отлично" produce the same raw
engine score 2 — the claimed 1.2× uppercase boost does not happen, because
the caps rule inspects the already-lowercased `value`. -/
theorem C5_counterexample :
    apply_vader_rules_enhanced lexFine
        (merge_tokens id (tokenize_with_positions "ОТЛИЧНО")) = (2, 1)
    ∧ apply_vader_rules_enhanced lexFine
        (merge_tokens id (tokenize_with_positions "отлично")) = (2, 1)
    ∧ (2 : ℚ) ≠ 1.2 * 2 := by
  refine ⟨?_, ?_, by norm_num⟩
  · rw [show merge_tokens id (tokenize_with_positions "ОТЛИЧНО")
        = [⟨"отлично", "ОТЛИЧНО", false⟩] from by decide]
    simp +decide [apply_vader_rules_enhanced, apply_global_emoji_rules,
      apply_negation_rules_enhanced, apply_booster_rules_enhanced, apply_caps_rules,
      apply_emoji_punctuation_rules, apply_modifier_rules_enhanced,
      apply_contrast_rules_enhanced, negationHit, modifierHit, contrastHit, pyRange,
      List.range', List.find?, List.findSome?, List.lookup, List.range, List.range.loop,
      lexFine, booster_words, negation_words, intensifiers, modifiers, contrast_words,
      pyIsUpper]
  · rw [show merge_tokens id (tokenize_with_positions "отлично")
        = [⟨"отлично", "отлично", false⟩] from by decide]
    simp +decide [apply_vader_rules_enhanced, apply_global_emoji_rules,
      apply_negation_rules_enhanced, apply_booster_rules_enhanced, apply_caps_rules,
      apply_emoji_punctuation_rules, apply_modifier_rules_enhanced,
      apply_contrast_rules_enhanced, negationHit, modifierHit, contrastHit, pyRange,
      List.range', List.find?, List.findSome?, List.lookup, List.range, List.range.loop,
      lexFine, booster_words, negation_words, intensifiers, modifiers, contrast_words,
      pyIsUpper]

/-- Claim C5 as amended: the caps rule tests the lowercased `value`, which
for every word token the tokenizer produces is all-lowercase Cyrillic, so the
rule never changes the score of a tokenizer-produced word token — an
uppercase surface form scores the same as the lowercase form (the rule could
only ever fire if the external lemmatizer returned an uppercase lemma). -/
theorem C5_amended_caps_rule_inert (text : String) (t : Token)
    (ht : t ∈ tokenize_with_positions text) (hw : t.is_emoji = false) (s : ℚ) :
    apply_caps_rules t.value s = s := by
  obtain ⟨hne, hlow⟩ := (tokenize_sound text t ht).1 hw
  unfold apply_caps_rules
  rw [pyIsUpper_eq_false hne hlow]
  simp

/-- Witness for the amended C5 on the word token of "хорошо". -/
theorem C5_amended_caps_rule_inert_witness :
    apply_caps_rules (Token.mk "хорошо" "хорошо" false).value 2 = 2 :=
  C5_amended_caps_rule_inert "хорошо" ⟨"хорошо", "хорошо", false⟩
    (by decide) rfl 2

/-! ### C10: the multi-word table entries can never fire -/

/-- The modifier table without its multi-word keys. -/
def modifiers_single_word : List (String × ℚ) :=
  [("вроде", 0.7), ("типа", 0.7), ("почти", 0.8), ("слегка", 0.8),
   ("немного", 0.8), ("отчасти", 0.9), ("частично", 0.9)]

/-- The contrast set without its multi-word entry. -/
def contrast_words_single_word : List String :=
  ["но", "однако", "впрочем"]

def modifierHit_single (tokens : List Token) (j : Nat) : Option ℚ :=
  match tokens[j]? with
  | some t => if t.is_emoji then none else modifiers_single_word.lookup t.value
  | none => none

def apply_modifier_rules_single (tokens : List Token) (index : Nat) (score : ℚ) : ℚ :=
  match (pyRange (index - 2) index).findSome? (modifierHit_single tokens) with
  | some m => score * m
  | none => score

def contrastHit_single (tokens : List Token) (j : Nat) : Bool :=
  match tokens[j]? with
  | some t => !t.is_emoji && contrast_words_single_word.contains t.value
  | none => false

def apply_contrast_rules_single (tokens : List Token) (index : Nat) (score : ℚ) : ℚ :=
  if (pyRange (index - 5) index).any (contrastHit_single tokens) then score * 1.3
  else score

theorem ne_of_space_free {v : String} (h : ∀ c ∈ v.data, c ≠ ' ')
    {w : String} (hw : ' ' ∈ w.data) : v ≠ w :=
  fun he => h ' ' (he ▸ hw) rfl

theorem lookup_modifiers_drop {v : String} (h : ∀ c ∈ v.data, c ≠ ' ') :
    modifiers.lookup v = modifiers_single_word.lookup v := by
  have h1 : (v == "как бы") = false :=
    beq_eq_false_iff_ne.mpr (ne_of_space_free h (by decide))
  have h2 : (v == "не совсем") = false :=
    beq_eq_false_iff_ne.mpr (ne_of_space_free h (by decide))
  have h3 : (v == "в некоторой степени") = false :=
    beq_eq_false_iff_ne.mpr (ne_of_space_free h (by decide))
  simp [modifiers, modifiers_single_word, List.lookup, h1, h2, h3]

theorem contains_contrast_drop {v : String} (h : ∀ c ∈ v.data, c ≠ ' ') :
    contrast_words.contains v = contrast_words_single_word.contains v := by
  have h1 : (v == "тем не менее") = false :=
    beq_eq_false_iff_ne.mpr (ne_of_space_free h (by decide))
  simp [contrast_words, contrast_words_single_word, List.contains, List.elem, h1]

theorem findSome?_ext {α β : Type} (f g : α → Option β) :
    ∀ l : List α, (∀ x ∈ l, f x = g x) → l.findSome? f = l.findSome? g
  | [], _ => rfl
  | x :: l, h => by
    rw [List.findSome?_cons, List.findSome?_cons, h x (List.mem_cons_self x l)]
    cases g x with
    | none => exact findSome?_ext f g l (fun y hy => h y (List.mem_cons_of_mem x hy))
    | some b => rfl

theorem any_ext {α : Type} (f g : α → Bool) :
    ∀ l : List α, (∀ x ∈ l, f x = g x) → l.any f = l.any g
  | [], _ => rfl
  | x :: l, h => by
    rw [List.any_cons, List.any_cons, h x (List.mem_cons_self x l),
      any_ext f g l (fun y hy => h y (List.mem_cons_of_mem x hy))]

theorem modifierHit_drop (toks : List Token)
    (hsp : ∀ t ∈ toks, t.is_emoji = false → ∀ c ∈ t.value.data, c ≠ ' ')
    (j : Nat) : modifierHit toks j = modifierHit_single toks j := by
  unfold modifierHit modifierHit_single
  cases hj : toks[j]? with
  | none => rfl
  | some t =>
    dsimp only
    by_cases he : t.is_emoji = true
    · rw [if_pos he, if_pos he]
    · rw [if_neg he, if_neg he]
      exact lookup_modifiers_drop
        (hsp t (List.getElem?_mem hj) (Bool.eq_false_iff.mpr he))

theorem contrastHit_drop (toks : List Token)
    (hsp : ∀ t ∈ toks, t.is_emoji = false → ∀ c ∈ t.value.data, c ≠ ' ')
    (j : Nat) : contrastHit toks j = contrastHit_single toks j := by
  unfold contrastHit contrastHit_single
  cases hj : toks[j]? with
  | none => rfl
  | some t =>
    dsimp only
    by_cases he : t.is_emoji = true
    · simp [he]
    · rw [contains_contrast_drop (hsp t (List.getElem?_mem hj) (Bool.eq_false_iff.mpr he))]

theorem apply_modifier_single_eq (toks : List Token)
    (hsp : ∀ t ∈ toks, t.is_emoji = false → ∀ c ∈ t.value.data, c ≠ ' ')
    (i : Nat) (s : ℚ) :
    apply_modifier_rules_enhanced toks i s = apply_modifier_rules_single toks i s := by
  unfold apply_modifier_rules_enhanced apply_modifier_rules_single
  rw [findSome?_ext (modifierHit toks) (modifierHit_single toks) _
    (fun j _ => modifierHit_drop toks hsp j)]

theorem apply_contrast_single_eq (toks : List Token)
    (hsp : ∀ t ∈ toks, t.is_emoji = false → ∀ c ∈ t.value.data, c ≠ ' ')
    (i : Nat) (s : ℚ) :
    apply_contrast_rules_enhanced toks i s = apply_contrast_rules_single toks i s := by
  unfold apply_contrast_rules_enhanced apply_contrast_rules_single
  rw [any_ext (contrastHit toks) (contrastHit_single toks) _
    (fun j _ => contrastHit_drop toks hsp j)]

/-- Every non-emoji token the rule engine receives from the pipeline has a
space-free `value`, provided the lemmatizer returns space-free lemmas. -/
theorem merge_tokens_space_free (lem : String → String)
    (hlem : ∀ w c, c ∈ (lem w).data → c ≠ ' ') (text : String) :
    ∀ t ∈ merge_tokens lem (tokenize_with_positions text),
      t.is_emoji = false → ∀ c ∈ t.value.data, c ≠ ' ' := by
  intro t ht hw c hc
  rcases List.mem_append.mp ht with hl | hr
  · obtain ⟨t', _, rfl⟩ := List.mem_map.mp hl
    exact hlem t'.value c hc
  · have := (List.mem_filter.mp hr).2
    simp_all

/-- Claim C10: every tokenizer-produced token value is space-free, so the
multi-word keys of the modifier table ("как бы", "не совсем",
"в некоторой степени") and the multi-word contrast phrase ("тем не менее")
can never match a token: on every pipeline token sequence the modifier and
contrast scans behave exactly as with those entries removed (for any
lemmatizer that returns space-free lemmas). -/
theorem C10_multiword_entries_inert :
    (∀ (text : String), ∀ t ∈ tokenize_with_positions text,
      ∀ c ∈ t.value.data, c ≠ ' ')
    ∧ (∀ (lem : String → String), (∀ w c, c ∈ (lem w).data → c ≠ ' ') →
        ∀ (text : String) (i : Nat) (s : ℚ),
          apply_modifier_rules_enhanced
              (merge_tokens lem (tokenize_with_positions text)) i s
            = apply_modifier_rules_single
              (merge_tokens lem (tokenize_with_positions text)) i s
          ∧ apply_contrast_rules_enhanced
              (merge_tokens lem (tokenize_with_positions text)) i s
            = apply_contrast_rules_single
              (merge_tokens lem (tokenize_with_positions text)) i s) := by
  constructor
  · intro text t ht c hc
    exact (tokenize_sound text t ht).2 c hc
  · intro lem hlem text i s
    have hsp := merge_tokens_space_free lem hlem text
    exact ⟨apply_modifier_single_eq _ hsp i s, apply_contrast_single_eq _ hsp i s⟩

/-- Witness for C10 with the constant lemmatizer "дом" on the text "хорошо". -/
theorem C10_multiword_entries_inert_witness :
    apply_modifier_rules_enhanced
        (merge_tokens (fun _ => "дом") (tokenize_with_positions "хорошо")) 0 1
      = apply_modifier_rules_single
        (merge_tokens (fun _ => "дом") (tokenize_with_positions "хорошо")) 0 1
    ∧ apply_contrast_rules_enhanced
        (merge_tokens (fun _ => "дом") (tokenize_with_positions "хорошо")) 0 1
      = apply_contrast_rules_single
        (merge_tokens (fun _ => "дом") (tokenize_with_positions "хорошо")) 0 1 :=
  C10_multiword_entries_inert.2 (fun _ => "дом")
    (fun _ c hc => by
      rw [show ("дом" : String).data = ['д', 'о', 'м'] from rfl] at hc
      simp only [List.mem_cons, List.not_mem_nil, or_false] at hc
      rcases hc with rfl | rfl | rfl <;> decide)
    "хорошо" 0 1

end TextAnalyzer
